import Mathlib

/-!
Verification of the fileserver repository (src/main.go): a shallow embedding of
its path resolution (resolvePath), request handling (serve) and directory
listing rendering (listFiles), together with theorems settling the frozen
claims about the specification.

Modelling conventions:
- Machine strings are Lean `String`; filesystem paths are strings.
- The filesystem is a value of type `FS` giving the outcome of the OS calls
  the program makes (os.Stat, ioutil.ReadDir, os.Open, Close).
- Modification times are integers (whole seconds), which is the granularity of
  the HTTP If-Modified-Since comparison.
- The handler is a pure function from the configuration (the globals `root`
  and `file`), the filesystem and the request to a response paired with the
  list of operational-log lines it emits (the `log` calls inside `serve`;
  the timestamp prefix and trailing newline added by `log` itself are not
  modelled, nor is the per-request access-log line written in `main`).
- Writes to the HTTP response writer are modelled as always succeeding, so the
  write-failure log line of `listFiles` does not arise.
-/

/-- Whether a path is rooted, i.e. begins with the '/' separator. -/
def isRooted (s : String) : Bool :=
  match s.data with
  | [] => false
  | c :: _ => c = '/'

/-- Split a character list on a separator character, keeping empty pieces,
matching the semantics of strings/bytes splitting on every occurrence. -/
def splitSep (sep : Char) : List Char → List Char → List String
  | [], acc => [String.mk acc.reverse]
  | c :: rest, acc =>
    if c = sep then String.mk acc.reverse :: splitSep sep rest []
    else splitSep sep rest (c :: acc)

/-- Join a list of strings with a separator between consecutive elements. -/
def joinSep (sep : String) : List String → String
  | [] => ""
  | [x] => x
  | x :: y :: rest => x ++ sep ++ joinSep sep (y :: rest)

/-- Concatenation of a list of strings. -/
def joinAll : List String → String
  | [] => ""
  | x :: rest => x ++ joinAll rest

/-- Embedding of strings.Trim(s, "/") from the Go standard library as used at
src/main.go line 84: removes all leading and trailing '/' characters. -/
def goTrim (s : String) : String :=
  String.mk (((s.data.dropWhile (fun c => c = '/')).reverse.dropWhile
    (fun c => c = '/')).reverse)

/-- One step of path cleaning: push one path component onto the stack of kept
components (stack head is the most recently kept component). Empty components
and "." are dropped; ".." pops the previous component when there is one to
pop, is dropped at the root of a rooted path, and is kept otherwise. This is
the functional core of Go path/filepath.Clean (Unix rules). -/
def cleanPush (rooted : Bool) (stack : List String) (c : String) : List String :=
  if c = "" ∨ c = "." then stack
  else if c = ".." then
    match stack with
    | [] => if rooted then [] else [".."]
    | s :: rest => if s = ".." then ".." :: s :: rest else rest
  else c :: stack

/-- Embedding of Go path/filepath.Clean (Unix): shortest lexically equivalent
path, with "." for the empty result. -/
def cleanGo (path : String) : String :=
  if path = "" then "."
  else
    let rooted := isRooted path
    let comps := (splitSep '/' path.data []).foldl (cleanPush rooted) []
    let body := joinSep "/" comps.reverse
    if rooted then
      if body = "" then "/" else "/" ++ body
    else
      if body = "" then "." else body

/-- Embedding of Go path/filepath.Join on two elements (Unix): skip empty
elements, join the rest with "/" and Clean the result. Used at src/main.go
line 89 (query) and line 223 (hrefs). -/
def goJoin (a b : String) : String :=
  if a ≠ "" then cleanGo (a ++ "/" ++ b)
  else if b ≠ "" then cleanGo b
  else ""

/-- Embedding of Go path/filepath.Base (Unix): strip trailing slashes, then
keep everything after the last slash; "." for empty input, "/" when nothing
remains. Used at src/main.go line 153. -/
def goBase (path : String) : String :=
  if path = "" then "."
  else
    let t := String.mk ((path.data.reverse.dropWhile (fun c => c = '/')).reverse)
    let name := String.mk ((t.data.reverse.takeWhile (fun c => c ≠ '/')).reverse)
    if name = "" then "/" else name

/-- Embedding of Go path/filepath.Dir (Unix): Clean of everything up to and
including the final slash (Clean "" = "." when there is no slash). Used at
src/main.go line 152. -/
def goDir (path : String) : String :=
  cleanGo (String.mk ((path.data.reverse.dropWhile (fun c => c ≠ '/')).reverse))

/-- Embedding of Go path/filepath.Abs (Unix) with an explicit working
directory: Clean the path if it is already absolute, otherwise Join the
working directory with it. Used at src/main.go lines 145 and 148 (os.Getwd
is modelled as always succeeding, returning the given cwd). -/
def goAbs (cwd path : String) : String :=
  if isRooted path then cleanGo path else goJoin cwd path

-- Sanity checks of the path function embeddings on concrete values.
example : cleanGo "/a/b/.." = "/a" := by decide
example : cleanGo "/.." = "/" := by decide
example : cleanGo "a/../.." = ".." := by decide
example : cleanGo "//a//b/./c" = "/a/b/c" := by decide
example : goJoin "/a/b" "/.." = "/a" := by decide
example : goJoin "/srv/site" "/x/y" = "/srv/site/x/y" := by decide
example : goBase "/srv/site/index.html" = "index.html" := by decide
example : goDir "/srv/site/index.html" = "/srv/site" := by decide
example : goTrim "//index.html/" = "index.html" := by decide

/-- Metadata returned by a successful stat: whether the entry is a directory
(fi.IsDir at src/main.go line 100) and its modification time in whole seconds
(fi.ModTime at line 128). -/
structure FileInfo where
  isDir : Bool
  modTime : Int
deriving DecidableEq

/-- The kind of error a failed stat reports: one recognised by os.IsNotExist,
or any other error, carrying its message (err.Error()). -/
inductive StatErr where
  | notExist
  | other (msg : String)
deriving DecidableEq

/-- Outcome of os.Stat on a path. -/
inductive StatResult where
  | ok (fi : FileInfo)
  | err (e : StatErr)
deriving DecidableEq

/-- A model of the filesystem as seen through the OS calls the program makes.
Each field gives the outcome of one call on a given path; a single request
performs each call at most once, so one outcome per path suffices. -/
structure FS where
  /-- Outcome of os.Stat. -/
  stat : String → StatResult
  /-- Outcome of ioutil.ReadDir: an error message, or the names of the direct
  children in the order the read returns them. -/
  readDir : String → Except String (List String)
  /-- Outcome of os.Open: an error message, or the file's full content. -/
  openFile : String → Except String String
  /-- Outcome of Close on the opened file: some error message, or none. -/
  closeErr : String → Option String

/-- An incoming HTTP GET request: its URL path and the If-Modified-Since
request header, parsed to whole seconds (none when absent or unparseable). -/
structure Request where
  path : String
  ifModifiedSince : Option Int

/-- The response the handler produces, as observable by the client. -/
inductive Response where
  /-- http.NotFound: status 404 with the standard not-found body. -/
  | notFound
  /-- http.Error with status 500 and the given body. -/
  | err500 (body : String)
  /-- Status 200 with the given HTML listing body. -/
  | ok (body : String)
  /-- Status 304 Not Modified, no body. -/
  | notModified
  /-- Status 200 serving file content; name is the name handed to the content
  responder (used only for media-type inference), body the file content. -/
  | okContent (name : String) (body : String)
deriving DecidableEq

/-- Embedding of internalServerError (src/main.go lines 203-205):
http.Error(w, "internal server error.", 500). -/
def internalServerError : Response :=
  Response.err500 "internal server error."

/-- Embedding of fmt.Sprintf restricted to the "%s" verb, which is the only
verb the program's response-building format strings use: each "%s" in the
format is replaced, left to right, by the next argument. -/
def sprintfS : List Char → List String → List Char
  | '%' :: 's' :: rest, a :: args => a.data ++ sprintfS rest args
  | c :: rest, args => c :: sprintfS rest args
  | [], _ => []

/-- String-level wrapper around sprintfS. -/
def sprintf (fmt : String) (args : List String) : String :=
  String.mk (sprintfS fmt.data args)

/-- The HTML template of listFiles (src/main.go lines 208-220), verbatim. -/
def htmlTemplate : String :=
  "<!DOCTYPE html>\n<html lang=\"en\">\n<head>\n    <meta charset=\"UTF-8\">\n    <title>%s</title>\n</head>\n<body>\n<h1>Index of %s</h1>\n<hr>\n<p>\n%s</p>\n</body>\n</html>"

/-- One line of the listing body (src/main.go line 223):
fmt.Sprintf("<a href=\"%s\">%s</a><br>\n", filepath.Join(r.URL.Path, file), file). -/
def entryLine (reqPath name : String) : String :=
  sprintf "<a href=\"%s\">%s</a><br>\n" [goJoin reqPath name, name]

/-- Embedding of listFiles (src/main.go lines 207-227): the full body written
to the response writer, the template instantiated with the request path twice
and the concatenation of the entry lines. -/
def listFilesBody (reqPath : String) (files : List String) : String :=
  sprintf htmlTemplate [reqPath, reqPath, joinAll (files.map (entryLine reqPath))]

/-- Modelled from the spec: the standard conditional-GET content responder
(net/http.ServeContent, called at src/main.go line 128), which is library code
outside this repository. Per the spec it must "honor If-Modified-Since against
the file's modification time" with standard 304 semantics: with times in whole
seconds, a request whose If-Modified-Since is present and not earlier than the
modification time gets 304 Not Modified with no body, and otherwise the full
content is served with status 200. The name argument is used only for
media-type inference and is recorded in the response unchanged. -/
def serveContent (ims : Option Int) (name : String) (modtime : Int)
    (content : String) : Response :=
  match ims with
  | some t => if modtime ≤ t then Response.notModified
              else Response.okContent name content
  | none => Response.okContent name content

/-- Embedding of the part of serve after the access check (src/main.go lines
89-133), parameterised by the query path it computes at line 89. Returns the
response together with the operational-log lines emitted. -/
def statDispatch (file : String) (fs : FS) (query : String) (req : Request) :
    Response × List String :=
  match fs.stat query with
  | StatResult.err StatErr.notExist => (Response.notFound, [])
  | StatResult.err (StatErr.other msg) =>
    (internalServerError, ["fail to stat file " ++ query ++ ": " ++ msg ++ "."])
  | StatResult.ok fi =>
    if fi.isDir then
      if file = "*" then
        let start := if req.path ≠ "/" then [".."] else []
        match fs.readDir query with
        | Except.error _ => (internalServerError, [])
        | Except.ok names =>
          (Response.ok (listFilesBody req.path (start ++ names)), [])
      else
        (Response.ok (listFilesBody req.path [file]), [])
    else
      match fs.openFile query with
      | Except.error msg =>
        (internalServerError,
          ["fail to open file " ++ query ++ ": " ++ msg ++ "."])
      | Except.ok content =>
        let resp := serveContent req.ifModifiedSince "foo" fi.modTime content
        match fs.closeErr query with
        | some msg => (resp, ["fail to close " ++ query ++ ": " ++ msg ++ "."])
        | none => (resp, [])

/-- Embedding of serve (src/main.go lines 80-134). The globals root and file
are passed explicitly; the access check of lines 82-88 either answers 404 or
falls through to the stat/dispatch part on query = filepath.Join(root, path). -/
def serve (root file : String) (fs : FS) (req : Request) :
    Response × List String :=
  if req.path ≠ "/" then
    if file ≠ "*" ∧ goTrim req.path ≠ file then (Response.notFound, [])
    else statDispatch file fs (goJoin root req.path) req
  else statDispatch file fs (goJoin root req.path) req

/-- The startup configuration resolvePath computes: the globals root and file
after resolution. -/
structure Config where
  root : String
  file : String
deriving DecidableEq

/-- The process environment resolvePath runs in: the current working directory
(os.Getwd, modelled as always succeeding) and the stat outcomes at startup. -/
structure Env where
  cwd : String
  stat : String → StatResult

/-- Embedding of resolvePath (src/main.go lines 136-156): default an empty
root argument to the working directory, stat it and propagate a stat error;
a directory becomes (absolute path, "*"), anything else becomes
(parent directory of the absolute path, base name). filepath.Abs cannot fail
in this model because os.Getwd always succeeds. -/
def resolvePath (env : Env) (rootArg : String) : Except StatErr Config :=
  let root := if rootArg.length = 0 then env.cwd else rootArg
  match env.stat root with
  | StatResult.err e => Except.error e
  | StatResult.ok fi =>
    if fi.isDir then
      Except.ok { root := goAbs env.cwd root, file := "*" }
    else
      let abs := goAbs env.cwd root
      Except.ok { root := goDir abs, file := goBase abs }

/-- Whether a filesystem path q lies within the directory root: it is root
itself or a path below it. -/
def withinRoot (root q : String) : Bool :=
  q = root ∨ (root ++ "/").data.isPrefixOf q.data

/-- A concrete filesystem used to instantiate the theorems: a site directory
/srv/site holding a page, a subdirectory, an entry whose stat fails with a
non-not-exists error, and its parent directory /srv. -/
def fsW : FS where
  stat := fun p =>
    if p = "/srv" then StatResult.ok { isDir := true, modTime := 0 }
    else if p = "/srv/site" then StatResult.ok { isDir := true, modTime := 0 }
    else if p = "/srv/site/sub" then StatResult.ok { isDir := true, modTime := 0 }
    else if p = "/srv/site/index.html" then
      StatResult.ok { isDir := false, modTime := 100 }
    else if p = "/srv/site/locked" then
      StatResult.err (StatErr.other "permission denied")
    else StatResult.err StatErr.notExist
  readDir := fun p =>
    if p = "/srv" then Except.ok ["site"]
    else if p = "/srv/site" then Except.ok ["index.html", "locked", "sub"]
    else Except.error "read failure"
  openFile := fun p =>
    if p = "/srv/site/index.html" then Except.ok "hello world"
    else Except.error "open failure"
  closeErr := fun _ => none

/-- A concrete startup environment over the same filesystem. -/
def envW : Env := { cwd := "/home/user", stat := fsW.stat }

set_option maxRecDepth 80000

/-- C1: in single-file mode (file is not the sentinel "*"), a request whose
path is not "/" and whose slash-trimmed path differs from the configured file
gets 404 Not Found with no log output, for every filesystem — the handler
answers before consulting the filesystem at all. -/
theorem access_denied_404 (root file : String) (fs : FS) (p : String)
    (ims : Option Int) (hp : p ≠ "/") (hf : file ≠ "*") (ht : goTrim p ≠ file) :
    serve root file fs { path := p, ifModifiedSince := ims } =
      (Response.notFound, []) := by
  simp [serve, hp, hf, ht]

/-- Witness for access_denied_404 at a concrete denied request. -/
theorem access_denied_404_witness :
    ("/other.html" : String) ≠ "/" ∧ ("index.html" : String) ≠ "*" ∧
    goTrim "/other.html" ≠ "index.html" ∧
    serve "/srv/site" "index.html" fsW
      { path := "/other.html", ifModifiedSince := none } =
      (Response.notFound, []) :=
  ⟨by decide, by decide, by decide,
    access_denied_404 "/srv/site" "index.html" fsW "/other.html" none
      (by decide) (by decide) (by decide)⟩

/-- C6: a request for the root path "/" always passes the access check in both
modes: serve is literally the stat/dispatch step there, and a 404 for "/" can
only come from a not-exists stat result, never from the access policy. -/
theorem root_always_dispatched (root file : String) (fs : FS)
    (ims : Option Int) :
    serve root file fs { path := "/", ifModifiedSince := ims } =
      statDispatch file fs (goJoin root "/")
        { path := "/", ifModifiedSince := ims } ∧
    ((serve root file fs { path := "/", ifModifiedSince := ims }).1 =
        Response.notFound →
      fs.stat (goJoin root "/") = StatResult.err StatErr.notExist) := by
  constructor
  · simp [serve]
  · intro h
    simp only [serve, ne_eq, not_true_eq_false, if_false, ite_false] at h
    rw [statDispatch] at h
    cases hs : fs.stat (goJoin root "/") with
    | ok fi =>
      rw [hs] at h
      by_cases hd : fi.isDir = true
      · simp [hd] at h
        by_cases hf : file = "*"
        · simp [hf] at h
          cases hr : fs.readDir (goJoin root "/") with
          | error e => simp [hr, internalServerError] at h
          | ok names => simp [hr] at h
        · simp [hf] at h
      · simp [hd] at h
        cases ho : fs.openFile (goJoin root "/") with
        | error e => simp [ho, internalServerError] at h
        | ok c =>
          simp only [ho] at h
          cases hc : fs.closeErr (goJoin root "/") with
          | some m =>
            simp only [hc] at h
            unfold serveContent at h
            cases ims with
            | some t => split at h <;> (try split at h) <;> simp_all
            | none => simp_all
          | none =>
            simp only [hc] at h
            unfold serveContent at h
            cases ims with
            | some t => split at h <;> (try split at h) <;> simp_all
            | none => simp_all
    | err e =>
      rw [hs] at h
      cases e with
      | notExist => rfl
      | other msg => simp [internalServerError] at h

/-- Witness for root_always_dispatched at a concrete configuration. -/
theorem root_always_dispatched_witness :
    serve "/srv/site" "index.html" fsW { path := "/", ifModifiedSince := none } =
      statDispatch "index.html" fsW (goJoin "/srv/site" "/")
        { path := "/", ifModifiedSince := none } ∧
    ((serve "/srv/site" "index.html" fsW
        { path := "/", ifModifiedSince := none }).1 = Response.notFound →
      fsW.stat (goJoin "/srv/site" "/") = StatResult.err StatErr.notExist) :=
  root_always_dispatched "/srv/site" "index.html" fsW none

/-- C7: the rendered listing body is the HTML template instantiated with the
request path as title, "Index of " followed by the request path as the h1
heading, and, in order, one anchor line per entry whose href is the request
path joined with the entry name and whose text is the entry name. -/
theorem listFiles_structure (p : String) (files : List String) :
    listFilesBody p files =
      "<!DOCTYPE html>\n<html lang=\"en\">\n<head>\n    <meta charset=\"UTF-8\">\n    <title>" ++
      (p ++ ("</title>\n</head>\n<body>\n<h1>Index of " ++
      (p ++ ("</h1>\n<hr>\n<p>\n" ++
      (joinAll (files.map (fun name =>
        "<a href=\"" ++ (goJoin p name ++ ("\">" ++ (name ++ "</a><br>\n"))))) ++
      "</p>\n</body>\n</html>"))))) := rfl

/-- C2: in serve-everything mode, a request whose resolved path stats as a
directory is answered with the listing of exactly the direct children the
directory read returns, in order, with ".." prepended precisely when the
request path is not "/"; a failing directory read is answered with 500. -/
theorem everything_dir_listing (root : String) (fs : FS) (p : String)
    (ims : Option Int) (m : Int)
    (hstat : fs.stat (goJoin root p) =
      StatResult.ok { isDir := true, modTime := m }) :
    (∀ names, fs.readDir (goJoin root p) = Except.ok names →
      serve root "*" fs { path := p, ifModifiedSince := ims } =
        (Response.ok
          (listFilesBody p ((if p ≠ "/" then [".."] else []) ++ names)), [])) ∧
    (∀ e, fs.readDir (goJoin root p) = Except.error e →
      serve root "*" fs { path := p, ifModifiedSince := ims } =
        (internalServerError, [])) := by
  constructor
  · intro names hr
    by_cases hp : p = "/"
    · subst hp
      simp [serve, statDispatch, hstat, hr]
    · simp [serve, statDispatch, hstat, hr, hp]
  · intro e hr
    by_cases hp : p = "/"
    · subst hp
      simp [serve, statDispatch, hstat, hr]
    · simp [serve, statDispatch, hstat, hr, hp]

/-- Witness for everything_dir_listing: listing the root and a failing read
on a subdirectory of the concrete filesystem. -/
theorem everything_dir_listing_witness :
    fsW.stat (goJoin "/srv/site" "/") =
      StatResult.ok { isDir := true, modTime := 0 } ∧
    serve "/srv/site" "*" fsW { path := "/", ifModifiedSince := none } =
      (Response.ok (listFilesBody "/"
        ((if ("/" : String) ≠ "/" then [".."] else []) ++
          ["index.html", "locked", "sub"])), []) :=
  ⟨by decide,
    (everything_dir_listing "/srv/site" fsW "/" none 0 (by decide)).1
      ["index.html", "locked", "sub"] (by rfl)⟩

/-- C5: in single-file mode, a request that passes the access check and whose
resolved path stats as a directory is answered with a listing containing the
single configured file name, for every filesystem with that stat result —
independent of the directory's actual contents. -/
theorem singleFile_dir_listing (root file : String) (fs : FS) (p : String)
    (ims : Option Int) (m : Int) (hf : file ≠ "*")
    (hacc : p = "/" ∨ goTrim p = file)
    (hstat : fs.stat (goJoin root p) =
      StatResult.ok { isDir := true, modTime := m }) :
    serve root file fs { path := p, ifModifiedSince := ims } =
      (Response.ok (listFilesBody p [file]), []) := by
  rcases hacc with hp | ht
  · subst hp
    simp [serve, statDispatch, hstat, hf]
  · by_cases hp : p = "/"
    · subst hp
      simp [serve, statDispatch, hstat, hf]
    · simp [serve, statDispatch, hstat, hf, hp, ht]

/-- Witness for singleFile_dir_listing: the root listing of the single-file
configuration over the concrete filesystem. -/
theorem singleFile_dir_listing_witness :
    ("index.html" : String) ≠ "*" ∧
    serve "/srv/site" "index.html" fsW
      { path := "/", ifModifiedSince := none } =
      (Response.ok (listFilesBody "/" ["index.html"]), []) :=
  ⟨by decide,
    singleFile_dir_listing "/srv/site" "index.html" fsW "/" none 0
      (by decide) (Or.inl rfl) (by decide)⟩

/-- C4: for a request that passes the access check, a not-exists stat failure
(which is also what a missing parent directory produces) is answered 404 with
no log line, and any other stat failure is answered 500 with the fixed generic
body — the same body whatever the underlying error message — while the error
message itself goes only to the operational log. -/
theorem stat_error_responses (root file : String) (fs : FS) (p : String)
    (ims : Option Int) (hacc : p = "/" ∨ file = "*" ∨ goTrim p = file) :
    (fs.stat (goJoin root p) = StatResult.err StatErr.notExist →
      serve root file fs { path := p, ifModifiedSince := ims } =
        (Response.notFound, [])) ∧
    (∀ msg, fs.stat (goJoin root p) = StatResult.err (StatErr.other msg) →
      serve root file fs { path := p, ifModifiedSince := ims } =
        (Response.err500 "internal server error.",
         ["fail to stat file " ++ goJoin root p ++ ": " ++ msg ++ "."])) := by
  constructor
  · intro hstat
    rcases hacc with hp | hf | ht
    · subst hp
      simp [serve, statDispatch, hstat]
    · by_cases hp : p = "/"
      · subst hp
        simp [serve, statDispatch, hstat]
      · simp [serve, statDispatch, hstat, hp, hf]
    · by_cases hp : p = "/"
      · subst hp
        simp [serve, statDispatch, hstat]
      · simp [serve, statDispatch, hstat, hp, ht]
  · intro msg hstat
    rcases hacc with hp | hf | ht
    · subst hp
      simp [serve, statDispatch, internalServerError, hstat]
    · by_cases hp : p = "/"
      · subst hp
        simp [serve, statDispatch, internalServerError, hstat]
      · simp [serve, statDispatch, internalServerError, hstat, hp, hf]
    · by_cases hp : p = "/"
      · subst hp
        simp [serve, statDispatch, internalServerError, hstat]
      · simp [serve, statDispatch, internalServerError, hstat, hp, ht]

/-- Witness for stat_error_responses: a missing entry gets 404 and an entry
whose stat fails with a permission error gets the generic 500 with the error
message confined to the log. -/
theorem stat_error_responses_witness :
    serve "/srv/site" "*" fsW { path := "/gone", ifModifiedSince := none } =
      (Response.notFound, []) ∧
    serve "/srv/site" "*" fsW { path := "/locked", ifModifiedSince := none } =
      (Response.err500 "internal server error.",
       ["fail to stat file " ++ goJoin "/srv/site" "/locked" ++ ": " ++
        "permission denied" ++ "."]) :=
  ⟨(stat_error_responses "/srv/site" "*" fsW "/gone" none
      (Or.inr (Or.inl rfl))).1 (by decide),
   (stat_error_responses "/srv/site" "*" fsW "/locked" none
      (Or.inr (Or.inl rfl))).2 "permission denied" (by decide)⟩

/-- C3: resolvePath defaults an empty argument to the working directory,
propagates stat errors (aborting startup), maps a directory argument to the
configuration (absolute path of the argument, sentinel "*"), and maps a
regular-file argument to (absolute path of its parent directory, base name). -/
theorem resolvePath_spec (env : Env) (arg : String) :
    (arg = "" → resolvePath env arg = resolvePath env env.cwd) ∧
    (∀ e, env.stat (if arg = "" then env.cwd else arg) = StatResult.err e →
      resolvePath env arg = Except.error e) ∧
    (∀ m, env.stat (if arg = "" then env.cwd else arg) =
        StatResult.ok { isDir := true, modTime := m } →
      resolvePath env arg = Except.ok
        { root := goAbs env.cwd (if arg = "" then env.cwd else arg),
          file := "*" }) ∧
    (∀ m, env.stat (if arg = "" then env.cwd else arg) =
        StatResult.ok { isDir := false, modTime := m } →
      resolvePath env arg = Except.ok
        { root := goDir (goAbs env.cwd (if arg = "" then env.cwd else arg)),
          file := goBase (goAbs env.cwd (if arg = "" then env.cwd else arg)) }) := by
  have hlen : arg.length = 0 ↔ arg = "" := by
    cases arg with
    | mk l =>
      cases l with
      | nil => simp
      | cons c cs => simp [String.length, String.ext_iff]
  refine ⟨?_, ?_, ?_, ?_⟩
  · intro he
    subst he
    simp [resolvePath]
  · intro e hstat
    by_cases he : arg = "" <;>
      simp_all [resolvePath, hlen]
  · intro m hstat
    by_cases he : arg = "" <;>
      simp_all [resolvePath, hlen]
  · intro m hstat
    by_cases he : arg = "" <;>
      simp_all [resolvePath, hlen]

/-- Witness for resolvePath_spec: a regular-file argument yields single-file
mode with the parent directory as root and the base name as the file. -/
theorem resolvePath_spec_witness :
    resolvePath envW "/srv/site/index.html" = Except.ok
      { root := goDir (goAbs envW.cwd
          (if ("/srv/site/index.html" : String) = "" then envW.cwd
           else "/srv/site/index.html")),
        file := goBase (goAbs envW.cwd
          (if ("/srv/site/index.html" : String) = "" then envW.cwd
           else "/srv/site/index.html")) } :=
  (resolvePath_spec envW "/srv/site/index.html").2.2.2 100 (by decide)

/-- C9: a request that reaches the file branch honors If-Modified-Since
against the file's modification time: a header equal to the modification time
is answered 304 Not Modified, and any strictly earlier header time is answered
200 with the full content. -/
theorem conditional_get (root file : String) (fs : FS) (p : String)
    (m : Int) (c : String)
    (hacc : p = "/" ∨ file = "*" ∨ goTrim p = file)
    (hstat : fs.stat (goJoin root p) =
      StatResult.ok { isDir := false, modTime := m })
    (hopen : fs.openFile (goJoin root p) = Except.ok c) :
    (serve root file fs { path := p, ifModifiedSince := some m }).1 =
      Response.notModified ∧
    (∀ t, t < m →
      (serve root file fs { path := p, ifModifiedSince := some t }).1 =
        Response.okContent "foo" c) := by
  have key : ∀ ims : Option Int,
      (serve root file fs { path := p, ifModifiedSince := ims }).1 =
        serveContent ims "foo" m c := by
    intro ims
    have hd : ∀ r : Request,
        (statDispatch file fs (goJoin root p) r).1 =
          serveContent r.ifModifiedSince "foo" m c := by
      intro r
      cases hc : fs.closeErr (goJoin root p) <;>
        simp [statDispatch, hstat, hopen, hc]
    rcases hacc with hp | hf | ht
    · subst hp
      simp only [serve, ne_eq, not_true_eq_false, if_false, ite_false]
      exact hd _
    · subst hf
      by_cases hp : p = "/"
      · subst hp
        simp only [serve, ne_eq, not_true_eq_false, if_false, ite_false]
        exact hd _
      · simp [serve, hp]
        exact hd _
    · by_cases hp : p = "/"
      · subst hp
        simp only [serve, ne_eq, not_true_eq_false, if_false, ite_false]
        exact hd _
      · simp [serve, hp, ht]
        exact hd _
  constructor
  · rw [key (some m)]
    simp [serveContent]
  · intro t ht
    rw [key (some t)]
    simp [serveContent, not_le.mpr ht]

/-- Witness for conditional_get: the page of the concrete filesystem with its
exact modification time, and with an earlier time. -/
theorem conditional_get_witness :
    (serve "/srv/site" "*" fsW
      { path := "/index.html", ifModifiedSince := some 100 }).1 =
      Response.notModified ∧
    (serve "/srv/site" "*" fsW
      { path := "/index.html", ifModifiedSince := some 99 }).1 =
      Response.okContent "foo" "hello world" :=
  ⟨(conditional_get "/srv/site" "*" fsW "/index.html" 100 "hello world"
      (Or.inr (Or.inl rfl)) (by decide) (by rfl)).1,
   (conditional_get "/srv/site" "*" fsW "/index.html" 100 "hello world"
      (Or.inr (Or.inl rfl)) (by decide) (by rfl)).2 99 (by decide)⟩

/-- Unfolding of serveContent with no If-Modified-Since header. -/
theorem serveContent_none (nm : String) (m : Int) (c : String) :
    serveContent none nm m c = Response.okContent nm c := rfl

/-- Unfolding of serveContent with an If-Modified-Since header. -/
theorem serveContent_some (t : Int) (nm : String) (m : Int) (c : String) :
    serveContent (some t) nm m c =
      if m ≤ t then Response.notModified else Response.okContent nm c := rfl

/-- Helper for the content-name property: whenever the stat/dispatch step
produces a 200 file-content response, the name handed to the content responder
was the constant "foo". -/
theorem statDispatch_content_name (file : String) (fs : FS) (query : String)
    (req : Request) (n b : String)
    (h : (statDispatch file fs query req).1 = Response.okContent n b) :
    n = "foo" := by
  cases hs : fs.stat query with
  | err e =>
    cases e <;> simp [statDispatch, hs, internalServerError] at h
  | ok fi =>
    by_cases hd : fi.isDir = true
    · by_cases hf : file = "*"
      · cases hr : fs.readDir query <;>
          simp [statDispatch, hs, hd, hf, hr, internalServerError] at h
      · simp [statDispatch, hs, hd, hf] at h
    · cases ho : fs.openFile query with
      | error msg =>
        simp [statDispatch, hs, hd, ho, internalServerError] at h
      | ok c =>
        have hsc : ∀ ims : Option Int,
            serveContent ims "foo" fi.modTime c = Response.okContent n b →
            n = "foo" := by
          intro ims hc
          rcases ims with _ | t
          · rw [serveContent_none, Response.okContent.injEq] at hc
            exact hc.1.symm
          · rw [serveContent_some] at hc
            rcases le_or_lt fi.modTime t with hle | hlt
            · rw [if_pos hle] at hc
              exact Response.noConfusion hc
            · rw [if_neg (not_le.mpr hlt), Response.okContent.injEq] at hc
              exact hc.1.symm
        cases hcl : fs.closeErr query with
        | some msg =>
          simp only [statDispatch, hs, hd, ho, hcl, Bool.false_eq_true,
            if_false, ite_false] at h
          exact hsc _ h
        | none =>
          simp only [statDispatch, hs, hd, ho, hcl, Bool.false_eq_true,
            if_false, ite_false] at h
          exact hsc _ h

/-- C10: whenever the handler answers with file content, the name it handed to
the content responder is the constant "foo", never the requested file's name,
so the media type is determined identically for every file. -/
theorem content_name_const (root file : String) (fs : FS) (req : Request)
    (n b : String)
    (h : (serve root file fs req).1 = Response.okContent n b) : n = "foo" := by
  unfold serve at h
  split at h
  · split at h
    · simp at h
    · exact statDispatch_content_name _ _ _ _ _ _ h
  · exact statDispatch_content_name _ _ _ _ _ _ h

/-- Witness for content_name_const: serving the concrete page indeed yields a
content response named "foo". -/
theorem content_name_const_witness :
    (serve "/srv/site" "*" fsW
      { path := "/index.html", ifModifiedSince := none }).1 =
      Response.okContent "foo" "hello world" ∧ ("foo" : String) = "foo" :=
  ⟨by rfl,
    content_name_const "/srv/site" "*" fsW
      { path := "/index.html", ifModifiedSince := none } "foo" "hello world"
      (by rfl)⟩

/-- C8 counterexample: with root /srv/site in serve-everything mode, the
request path "/.." resolves by filepath.Join to /srv — outside the root — yet
the handler serves it: the response is the 200 listing of /srv, not a
rejection or 404. -/
theorem traversal_escape_cex :
    withinRoot "/srv/site" (goJoin "/srv/site" "/..") = false ∧
    (serve "/srv/site" "*" fsW { path := "/..", ifModifiedSince := none }).1 =
      Response.ok (listFilesBody "/.." ["..", "site"]) := by
  constructor
  · decide
  · rfl

/-- C8 (amended): past the access check the handler consults the filesystem
exclusively at filepath.Join(root, requestPath) = Clean(root ++ "/" ++ path),
with no containment validation of that path against the root: serve is exactly
the access check followed by dispatch on the cleaned concatenation, so a
request path whose join resolves outside rootDir is served like any other. -/
theorem serve_join_no_containment (root file : String) (fs : FS) (p : String)
    (ims : Option Int) (hr : root ≠ "") :
    serve root file fs { path := p, ifModifiedSince := ims } =
      (if p ≠ "/" ∧ (file ≠ "*" ∧ goTrim p ≠ file) then (Response.notFound, [])
       else statDispatch file fs (cleanGo (root ++ "/" ++ p))
         { path := p, ifModifiedSince := ims }) := by
  have hq : goJoin root p = cleanGo (root ++ "/" ++ p) := by
    simp [goJoin, hr]
  by_cases hp : p = "/"
  · subst hp
    simp [serve, hq]
  · by_cases hc : file ≠ "*" ∧ goTrim p ≠ file
    · simp [serve, hp, hc]
    · simp [serve, hp, hc, hq]

/-- Witness for serve_join_no_containment at the escaping request. -/
theorem serve_join_no_containment_witness :
    serve "/srv/site" "*" fsW { path := "/..", ifModifiedSince := none } =
      (if ("/.." : String) ≠ "/" ∧ (("*" : String) ≠ "*" ∧ goTrim "/.." ≠ "*")
       then (Response.notFound, [])
       else statDispatch "*" fsW (cleanGo ("/srv/site" ++ "/" ++ "/.."))
         { path := "/..", ifModifiedSince := none }) :=
  serve_join_no_containment "/srv/site" "*" fsW "/.." none (by decide)
